import Mathlib

/-!
Verification development for the "JS Overrides" browser extension
(`src/popup.tsx`, the popup-side profile lifecycle controller, and
`src/content.js`, the page-side script injector).

The embedding is shallow: JS strings are modelled as `List Char`
(well-formed UTF-16, i.e. sequences of Unicode scalar values), byte
strings as `List Nat` with values below 256, the browser cookie jar as a
list of name/value pairs, and the asynchronous controller as a small-step
event machine whose atomic steps are exactly the synchronous segments of
the source between `await` points and host-API callbacks.  React state
setters (`setIsLoading`, `setSavedProfiles`, ...) are modelled as
synchronous assignments to the corresponding state fields.
-/

/-! ## Data model (`popup.tsx` interfaces `OverrideEntry`, `Profile`) -/

structure OverrideEntry where
  appName : List Char
  featureKey : List Char
  url : List Char
deriving DecidableEq

structure Profile where
  name : List Char
  overrides : List OverrideEntry
deriving DecidableEq

/-- Override key `appName + "/" + featureKey` as built by `applyProfile`,
`applyOverlay` and `disableProfile` in `popup.tsx`. -/
def overrideKey (o : OverrideEntry) : List Char :=
  o.appName ++ '/' :: o.featureKey

/-! ## JavaScript string primitives used by the two sides

`String.prototype.trim`, `String.prototype.indexOf`, `String.prototype.split`,
`encodeURIComponent` and `decodeURIComponent` are host builtins; they are
modelled below following the ECMAScript specification. -/

/-- WhiteSpace and LineTerminator code points recognised by `trim`. -/
def wsNatList : List Nat :=
  [9, 10, 11, 12, 13, 32, 160, 5760, 8192, 8193, 8194, 8195, 8196,
    8197, 8198, 8199, 8200, 8201, 8202, 8232, 8233, 8239, 8287, 12288, 65279]

def wsChar (c : Char) : Bool :=
  c.toNat ∈ wsNatList

/-- JS `s.trim()`: strip whitespace from both ends. -/
def jsTrim (s : List Char) : List Char :=
  ((s.dropWhile wsChar).reverse.dropWhile wsChar).reverse

/-- JS `s.indexOf(c)` restricted to single-character needles, as an option. -/
def idxOfEq (c : Char) : List Char → Option Nat
  | [] => none
  | a :: rest => if a = c then some 0 else (idxOfEq c rest).map (· + 1)

/-- JS `s.split(";")` (single-character separator). -/
def splitSemi : List Char → List (List Char)
  | [] => [[]]
  | c :: rest =>
    if c = ';' then [] :: splitSemi rest
    else
      match splitSemi rest with
      | [] => [[c]]
      | s :: ss => (c :: s) :: ss

/-! ### `encodeURIComponent` / `decodeURIComponent` -/

/-- Code points left unescaped by `encodeURIComponent`:
`A-Z a-z 0-9 - _ . ! ~ * ' ( )`. -/
def uriUnresNat (n : Nat) : Bool :=
  (65 ≤ n && n ≤ 90) || (97 ≤ n && n ≤ 122) || (48 ≤ n && n ≤ 57) ||
    n ∈ [45, 95, 46, 33, 126, 42, 39, 40, 41]

def uriUnreserved (c : Char) : Bool := uriUnresNat c.toNat

/-- UTF-8 encoding of one Unicode scalar value. -/
def utf8Bytes (n : Nat) : List Nat :=
  if n < 0x80 then [n]
  else if n < 0x800 then [0xC0 + n / 64, 0x80 + n % 64]
  else if n < 0x10000 then
    [0xE0 + n / 4096, 0x80 + (n / 64) % 64, 0x80 + n % 64]
  else
    [0xF0 + n / 262144, 0x80 + (n / 4096) % 64, 0x80 + (n / 64) % 64,
      0x80 + n % 64]

/-- Uppercase hex digit, as produced by `encodeURIComponent`. -/
def hexDigitChar (n : Nat) : Char :=
  Char.ofNat (if n < 10 then 48 + n else 55 + n)

/-- Percent escape `%XY` for one byte. -/
def pctByteChars (b : Nat) : List Char :=
  ['%', hexDigitChar (b / 16), hexDigitChar (b % 16)]

/-- `encodeURIComponent`: unreserved code points pass through, every other
code point is UTF-8 encoded and each byte percent-escaped. -/
def encodeURIComponent (s : List Char) : List Char :=
  s.flatMap fun c =>
    if uriUnreserved c then [c] else (utf8Bytes c.toNat).flatMap pctByteChars

/-- Value of a hex digit character (both cases), `none` otherwise. -/
def hexVal (c : Char) : Option Nat :=
  if 48 ≤ c.toNat ∧ c.toNat ≤ 57 then some (c.toNat - 48)
  else if 65 ≤ c.toNat ∧ c.toNat ≤ 70 then some (c.toNat - 55)
  else if 97 ≤ c.toNat ∧ c.toNat ≤ 102 then some (c.toNat - 87)
  else none

/-- First decoding phase of `decodeURIComponent`: replace each `%XY`
escape by the byte it denotes (`Sum.inr`), keep other characters
(`Sum.inl`); a `%` not followed by two hex digits is an error. -/
def pctTokens : List Char → Option (List (Char ⊕ Nat))
  | [] => some []
  | c :: rest =>
    if c = '%' then
      match rest with
      | h :: l :: rest2 =>
        match hexVal h, hexVal l with
        | some hv, some lv =>
          (pctTokens rest2).map fun ts => Sum.inr (16 * hv + lv) :: ts
        | _, _ => none
      | _ => none
    else (pctTokens rest).map fun ts => Sum.inl c :: ts

mutual

/-- Second decoding phase of `decodeURIComponent`: decode maximal runs of
escaped bytes as minimal-length UTF-8 sequences (rejecting stray or
overlong sequences and surrogate code points, as the builtin does).  The
two-, three- and four-byte sequence cases are split into mutually
recursive helpers, one per sequence length. -/
def utf8Tokens : List (Char ⊕ Nat) → Option (List Char)
  | [] => some []
  | Sum.inl c :: ts => (utf8Tokens ts).map fun s => c :: s
  | Sum.inr b0 :: ts =>
    if b0 < 0x80 then (utf8Tokens ts).map fun s => Char.ofNat b0 :: s
    else if b0 < 0xC2 then none
    else if b0 ≤ 0xDF then utf8Two b0 ts
    else if b0 ≤ 0xEF then utf8Three b0 ts
    else if b0 ≤ 0xF4 then utf8Four b0 ts
    else none

def utf8Two (b0 : Nat) : List (Char ⊕ Nat) → Option (List Char)
  | Sum.inr b1 :: ts2 =>
    if 0x80 ≤ b1 ∧ b1 < 0xC0 then
      (utf8Tokens ts2).map fun s =>
        Char.ofNat ((b0 - 0xC0) * 64 + (b1 - 0x80)) :: s
    else none
  | _ => none

def utf8Three (b0 : Nat) : List (Char ⊕ Nat) → Option (List Char)
  | Sum.inr b1 :: Sum.inr b2 :: ts2 =>
    if 0x80 ≤ b1 ∧ b1 < 0xC0 ∧ 0x80 ≤ b2 ∧ b2 < 0xC0 ∧
        (b0 = 0xE0 → 0xA0 ≤ b1) ∧ (b0 = 0xED → b1 < 0xA0) then
      (utf8Tokens ts2).map fun s =>
        Char.ofNat ((b0 - 0xE0) * 4096 + (b1 - 0x80) * 64 + (b2 - 0x80)) :: s
    else none
  | _ => none

def utf8Four (b0 : Nat) : List (Char ⊕ Nat) → Option (List Char)
  | Sum.inr b1 :: Sum.inr b2 :: Sum.inr b3 :: ts2 =>
    if 0x80 ≤ b1 ∧ b1 < 0xC0 ∧ 0x80 ≤ b2 ∧ b2 < 0xC0 ∧
        0x80 ≤ b3 ∧ b3 < 0xC0 ∧
        (b0 = 0xF0 → 0x90 ≤ b1) ∧ (b0 = 0xF4 → b1 < 0x90) then
      (utf8Tokens ts2).map fun s =>
        Char.ofNat ((b0 - 0xF0) * 262144 + (b1 - 0x80) * 4096 +
          (b2 - 0x80) * 64 + (b3 - 0x80)) :: s
    else none
  | _ => none

end

/-- `decodeURIComponent`, returning `none` where the builtin throws. -/
def decodeURIComponent (s : List Char) : Option (List Char) :=
  (pctTokens s).bind utf8Tokens

/-! ## Override Encoding Protocol (`applyProfile` lines 319-321) -/

/-- Cookie string written for one entry by the controller:
`appName/featureKey=encodeURIComponent(url)`. -/
def encodeCookiePair (o : OverrideEntry) : List Char :=
  overrideKey o ++ '=' :: encodeURIComponent o.url

/-! ## Injector cookie parsing (`content.js` `parseCookies`) -/

/-- Insertion-ordered map update with JS `Map.set` semantics: overwrite in
place if the key is present, otherwise append. -/
def mapSet (m : List (List Char × List Char)) (k v : List Char) :
    List (List Char × List Char) :=
  if m.any fun kv => decide (kv.1 = k) then
    m.map fun kv => if kv.1 = k then (k, v) else kv
  else m ++ [(k, v)]

/-- Model of `parseCookies`: split the cookie string on `;`, and for each
segment trim it, find the first `=`, trim the key, and decode the value
(falling back to the raw value when `decodeURIComponent` throws). -/
def parseCookies (cookieStr : List Char) : List (List Char × List Char) :=
  if (jsTrim cookieStr).isEmpty then []
  else
    (splitSemi cookieStr).foldl
      (fun m seg =>
        let t := jsTrim seg
        if t.isEmpty then m
        else
          match idxOfEq '=' t with
          | none => m
          | some i =>
            let key := jsTrim (t.take i)
            let v := t.drop (i + 1)
            if key.isEmpty then m
            else
              mapSet m key
                (match decodeURIComponent v with
                 | some d => d
                 | none => v))
      []

/-! ## Injector element ids (`content.js` `loadScript` line 101 and
`popup.tsx` `disableProfile` lines 428-431) -/

/-- The constant `SCRIPT_PREFIX = "override-script-"` of `content.js`. -/
def scriptPrefixChars : List Char := "override-script-".data

/-- Base64 alphabet character for a 6-bit value (`btoa` alphabet). -/
def b64char (n : Nat) : Char :=
  if n < 26 then Char.ofNat (65 + n)
  else if n < 52 then Char.ofNat (97 + (n - 26))
  else if n < 62 then Char.ofNat (48 + (n - 52))
  else if n = 62 then '+'
  else '/'

/-- `btoa` on a latin-1 byte string, with `=` padding. -/
def b64encode : List Nat → List Char
  | [] => []
  | [b0] => [b64char (b0 / 4), b64char (b0 % 4 * 16), '=', '=']
  | [b0, b1] =>
    [b64char (b0 / 4), b64char (b0 % 4 * 16 + b1 / 16),
      b64char (b1 % 16 * 4), '=']
  | b0 :: b1 :: b2 :: rest =>
    b64char (b0 / 4) :: b64char (b0 % 4 * 16 + b1 / 16) ::
      b64char (b1 % 16 * 4 + b2 / 64) :: b64char (b2 % 64) :: b64encode rest

/-- Value of a base64 alphabet character, `none` otherwise. -/
def b64val (c : Char) : Option Nat :=
  if 65 ≤ c.toNat ∧ c.toNat ≤ 90 then some (c.toNat - 65)
  else if 97 ≤ c.toNat ∧ c.toNat ≤ 122 then some (c.toNat - 97 + 26)
  else if 48 ≤ c.toNat ∧ c.toNat ≤ 57 then some (c.toNat - 48 + 52)
  else if c = '+' then some 62
  else if c = '/' then some 63
  else none

/-- Base64 decoding (inverse of `b64encode`), used only to show that
`b64encode` is injective. -/
def b64decode : List Char → Option (List Nat)
  | [] => some []
  | c0 :: c1 :: c2 :: c3 :: rest =>
    match b64val c0, b64val c1 with
    | some v0, some v1 =>
      if c2 = '=' then
        if c3 = '=' ∧ rest = [] then some [v0 * 4 + v1 / 16] else none
      else
        match b64val c2 with
        | some v2 =>
          if c3 = '=' then
            if rest = [] then some [v0 * 4 + v1 / 16, v1 % 16 * 16 + v2 / 4]
            else none
          else
            match b64val c3 with
            | some v3 =>
              (b64decode rest).map fun tail =>
                (v0 * 4 + v1 / 16) :: (v1 % 16 * 16 + v2 / 4) ::
                  (v2 % 4 * 64 + v3) :: tail
            | none => none
        | none => none
    | _, _ => none
  | _ => none

/-- Characters deleted by `.replace(/[+/=]/g, "")` in `loadScript`. -/
def b64Stripped (c : Char) : Bool :=
  decide (c = '+') || decide (c = '/') || decide (c = '=')

/-- Element id assigned by the Injector for an override key:
`"override-script-" + btoa(key).replace(/[+/=]/g, "")` (`content.js:101`). -/
def injectorScriptId (key : List Char) : List Char :=
  scriptPrefixChars ++ (b64encode (key.map Char.toNat)).filter fun c => !b64Stripped c

/-- Element id by which `disableProfile` looks elements up for removal:
`"override-script-" + key` (`popup.tsx:428-431`). -/
def disableRemovalId (key : List Char) : List Char :=
  scriptPrefixChars ++ key

/-! ## Injector validation and injection (`content.js`) -/

/-- `isValidOverrideKey` of `content.js`: truthy, contains `/`, length > 1. -/
def isValidOverrideKey (key : List Char) : Bool :=
  !key.isEmpty && key.contains '/' && decide (key.length > 1)

/-- ASCII lower-casing, for URL scheme normalisation. -/
def asciiLower (c : Char) : Char :=
  if 65 ≤ c.toNat ∧ c.toNat ≤ 90 then Char.ofNat (c.toNat + 32) else c

/-- Model of `isValidUrl` of `content.js` (`new URL(url)` followed by a
protocol check): the part before the first `:` must case-insensitively be
`http` or `https`, and a non-empty authority must follow the optional
slashes (WHATWG parsing of special schemes, restricted to what
`isValidUrl` observes). -/
def isValidUrl (s : List Char) : Bool :=
  match idxOfEq ':' s with
  | none => false
  | some i =>
    let scheme := (s.take i).map asciiLower
    (decide (scheme = "http".data) || decide (scheme = "https".data)) &&
      !((s.drop (i + 1)).dropWhile fun c => decide (c = '/')).isEmpty

/-- One DOM-visible action of the Injector run. -/
inductive InjAction
  | parsedCookies
  | skippedInvalidKey (key : List Char)
  | warnedInvalidUrl (key : List Char)
  | inject (key url : List Char)
deriving DecidableEq

/-- Model of `injectScripts`: parse the cookie string, then for each entry
in map order skip non-candidate keys, warn on invalid URLs, and inject the
rest (the skip/warn actions stand for the source's early `return`s). -/
def injectScripts (cookieStr : List Char) : List InjAction :=
  InjAction.parsedCookies ::
    (parseCookies cookieStr).flatMap fun kv =>
      if !isValidOverrideKey kv.1 then [InjAction.skippedInvalidKey kv.1]
      else if !isValidUrl kv.2 then [InjAction.warnedInvalidUrl kv.1]
      else [InjAction.inject kv.1 kv.2]

/-- Top of the content script (`content.js:21-24`): if the page-local
`localStorage` value under `__disable_js_overrides__` is the string
`"true"`, return before parsing cookies or injecting anything. -/
def contentMain (disableFlagValue : Option (List Char))
    (cookieStr : List Char) : List InjAction :=
  if disableFlagValue = some "true".data then [] else injectScripts cookieStr

/-- DOM effect of one `loadScript(key, url)` call, with the document
modelled as the list of present element ids (`content.js:100-106, 152`):
if an element with the derived id exists the call returns, otherwise it
appends one new element with that id. -/
def loadScriptDom (dom : List (List Char)) (key : List Char) :
    List (List Char) :=
  if injectorScriptId key ∈ dom then dom else dom ++ [injectorScriptId key]

/-! ## Injector retry loop (`content.js:129-144`) -/

def MAX_RETRIES : Nat := 3

def RETRY_DELAY : Nat := 100

/-- Observable events of one override key's retry loop. -/
inductive RetryEv
  | loadAttempt (attempt : Nat)
  | delay (ms : Nat)
  | removeElem
deriving DecidableEq

/-- Trace of `loadScript(key, url, attempt)` when the script URL always
fails to load.  `present` models `document.getElementById(scriptId)` being
non-null at entry; on failure with `attempt < MAX_RETRIES` the loop waits
`RETRY_DELAY * attempt`, removes the failed element and recurses with
`attempt + 1`; otherwise it logs and gives up.  `key` and `url` are
carried to mirror the source signature; the trace does not depend on
them. -/
def loadScriptAlwaysFail (key url : List Char) (present : Bool)
    (attempt : Nat) : List RetryEv :=
  if present then []
  else
    RetryEv.loadAttempt attempt ::
      (if h : attempt < MAX_RETRIES then
        RetryEv.delay (RETRY_DELAY * attempt) :: RetryEv.removeElem ::
          loadScriptAlwaysFail key url false (attempt + 1)
      else [])
termination_by MAX_RETRIES - attempt
decreasing_by omega

/-! ## Profile Lifecycle Controller (`popup.tsx`)

The popup runs single-threaded and event-driven.  Each lifecycle function
is cut into the atomic segments the event loop actually executes: the
synchronous body up to the first asynchronous boundary, and one segment
per host-API callback.  `startOp` is the synchronous body of a button
handler; `fireEvent` runs one outstanding callback.  A `Pending` value
carries exactly the data the corresponding source closure captures. -/

/-- One cookie of the active tab's hostname (domain and path are constant
in this single-tab model and elided). -/
structure Cookie where
  name : List Char
  value : List Char
deriving DecidableEq

/-- Host-API calls and page mutations issued by the controller, in
program order. -/
inductive Effect
  | cookieRemove (name : List Char)
  | cookieSet (name value : List Char)
  | insertCSS
  | removeDisableFlag
  | setDisableFlag
  | storageWrite (profiles : List Profile)
  | reload (bypassCache : Bool)
deriving DecidableEq

/-- Outstanding asynchronous continuations. -/
inductive Pending
  | applyClearDone (p : Profile)
  | applyTabQuery (p : Profile)
  | applyScriptThen (p : Profile)
  | disableTabQuery (p : Profile)
  | disableScriptThen (p : Profile)
  | saveStorageDone (profiles : List Profile)
  | deleteStorageDone (profiles : List Profile) (name : List Char)
deriving DecidableEq

/-- Controller-visible state: `busy` is the `isLoading` flag, `saved` the
`savedProfiles` state, `active` the `activeProfiles` state, `jar` the
tab's cookie jar, `pageDom` the ids of loader elements present in the
page, `pageDisabled` the page-local `__disable_js_overrides__` flag. -/
structure CtrlState where
  busy : Bool
  saved : List Profile
  active : List (List Char)
  jar : List Cookie
  pageDom : List (List Char)
  pageDisabled : Bool
  pending : List Pending
  effects : List Effect
deriving DecidableEq

/-- The four lifecycle operations guarded by the `isLoading` flag.
`saveP` models the create (non-editing) path of `saveProfile`. -/
inductive Op
  | applyP (p : Profile)
  | disableP (p : Profile)
  | saveP (name : List Char) (entries : List OverrideEntry)
  | deleteP (name : List Char)
deriving DecidableEq

/-- Cookies matched by `clearAllOverrideCookies`: any cookie whose name
contains `/` (`popup.tsx:72-75`). -/
def overrideCookiesOf (jar : List Cookie) : List Cookie :=
  jar.filter fun c => decide ('/' ∈ c.name)

/-- Jar state after `clearAllOverrideCookies` has removed every matched
cookie (removal is by name, acknowledged per cookie). -/
def clearAllRemaining (jar : List Cookie) : List Cookie :=
  (overrideCookiesOf jar).foldl
    (fun j r => j.filter fun c => decide (c.name ≠ r.name)) jar

/-- `document.cookie = name + "=" + value` overwrite semantics. -/
def setCookie (jar : List Cookie) (name value : List Char) : List Cookie :=
  if jar.any fun c => decide (c.name = name) then
    jar.map fun c => if c.name = name then { c with value := value } else c
  else jar ++ [⟨name, value⟩]

/-- Cookie writes executed in the page by `applyProfile`'s injected
function: one `document.cookie` assignment per entry, in order. -/
def writeProfileCookies (jar : List Cookie) (p : Profile) : List Cookie :=
  p.overrides.foldl
    (fun j o => setCookie j (overrideKey o) (encodeURIComponent o.url)) jar

/-- Synchronous body of each lifecycle handler.  Every branch begins with
the `if (isLoading) return;` guard.  For `applyP` the body suspends at
`await clearAllOverrideCookies()` with `isLoading` still `true`; for the
other three the body runs to its end (through `finally`, which clears the
flag) before any callback fires — except that `saveP` with an empty name
or entry list returns before its `try`, leaving the flag set
(`popup.tsx:260-263`). -/
def startOp (op : Op) (s : CtrlState) : CtrlState :=
  if s.busy then s
  else
    match op with
    | .applyP p =>
      { s with busy := true, pending := s.pending ++ [.applyClearDone p] }
    | .disableP p =>
      { s with busy := false, pending := s.pending ++ [.disableTabQuery p] }
    | .saveP name entries =>
      if name = [] ∨ entries = [] then { s with busy := true }
      else
        let t := jsTrim name
        if s.saved.any fun q => decide (q.name = t) then
          { s with busy := false }
        else
          { s with
            busy := false
            pending := s.pending ++ [.saveStorageDone (s.saved ++ [⟨t, entries⟩])] }
    | .deleteP name =>
      { s with
        busy := false
        pending := s.pending ++
          [.deleteStorageDone (s.saved.filter fun p => decide (p.name ≠ name)) name] }

/-- Run one outstanding callback.  `applyClearDone` is the continuation of
`applyProfile` after `await clearAllOverrideCookies()`: the clear has
mutated the jar, the body then calls `chrome.tabs.query` (registering the
next callback) and falls through to `finally`, clearing `isLoading` while
the tab-query, scripting and reload work is still outstanding.  The
scripting callbacks mutate the page; the `.then` callbacks update the
active set and reload the tab — `applyProfile` reloads without options
(`popup.tsx:361`), `disableProfile` with `bypassCache: true`
(`popup.tsx:444`). -/
def fireEvent (ev : Pending) (s : CtrlState) : CtrlState :=
  if ev ∈ s.pending then
    let s1 := { s with pending := s.pending.erase ev }
    match ev with
    | .applyClearDone p =>
      { s1 with
        busy := false
        jar := clearAllRemaining s1.jar
        effects := s1.effects ++
          (overrideCookiesOf s1.jar).map fun c => .cookieRemove c.name
        pending := s1.pending ++ [.applyTabQuery p] }
    | .applyTabQuery p =>
      { s1 with
        jar := writeProfileCookies s1.jar p
        pageDisabled := false
        effects := s1.effects ++ [.insertCSS, .removeDisableFlag] ++
          (p.overrides.map fun o =>
            .cookieSet (overrideKey o) (encodeURIComponent o.url))
        pending := s1.pending ++ [.applyScriptThen p] }
    | .applyScriptThen p =>
      { s1 with
        active := if p.name ∈ s1.active then s1.active else s1.active ++ [p.name]
        effects := s1.effects ++ [.reload false] }
    | .disableTabQuery p =>
      { s1 with
        jar := s1.jar.filter fun c =>
          decide (c.name ∉ p.overrides.map overrideKey)
        pageDisabled := true
        pageDom := (p.overrides.map overrideKey).foldl
          (fun d k => d.erase (disableRemovalId k)) s1.pageDom
        effects := s1.effects ++
          ((p.overrides.map overrideKey).map fun k => .cookieRemove k) ++
          [.setDisableFlag]
        pending := s1.pending ++ [.disableScriptThen p] }
    | .disableScriptThen p =>
      { s1 with
        active := s1.active.filter fun n => decide (n ≠ p.name)
        effects := s1.effects ++ [.reload true] }
    | .saveStorageDone ps =>
      { s1 with saved := ps, effects := s1.effects ++ [.storageWrite ps] }
    | .deleteStorageDone ps name =>
      { s1 with
        saved := ps
        active := s1.active.filter fun n => decide (n ≠ name)
        effects := s1.effects ++ [.storageWrite ps] }
  else s

/-- `applyProfile` run to completion: its synchronous body followed by its
three callbacks in the order the event loop fires them. -/
def applyProfileRun (p : Profile) (s : CtrlState) : CtrlState :=
  fireEvent (.applyScriptThen p)
    (fireEvent (.applyTabQuery p)
      (fireEvent (.applyClearDone p) (startOp (.applyP p) s)))

/-- Profile collection computed by `deleteProfile(name)` at call time. -/
def deletedProfiles (s : CtrlState) (name : List Char) : List Profile :=
  s.saved.filter fun p => decide (p.name ≠ name)

/-- `deleteProfile` run to completion: its synchronous body followed by
its storage callback. -/
def deleteProfileRun (name : List Char) (s : CtrlState) : CtrlState :=
  fireEvent (.deleteStorageDone (deletedProfiles s name) name)
    (startOp (.deleteP name) s)

/-! ## Auxiliary definitions used by the proofs -/

/-- Token image of `encodeURIComponent`: unreserved characters as raw
tokens, all other characters as their UTF-8 byte tokens. -/
def encTokens (s : List Char) : List (Char ⊕ Nat) :=
  s.flatMap fun c =>
    if uriUnreserved c then [Sum.inl c] else (utf8Bytes c.toNat).map Sum.inr

/-- Effect sequence of one complete `apply(profile)` following the spec's
section 4.4 step order — clear all override cookies, clear the page-local
disable flag, write the profile's cookies, reload — with the reload flag
amended to match the source (`chrome.tabs.reload(tab.id)` without
`bypassCache`). -/
def applyEffectsSpec (p : Profile) (jar : List Cookie) : List Effect :=
  ((overrideCookiesOf jar).map fun c => Effect.cookieRemove c.name) ++
    [Effect.insertCSS, Effect.removeDisableFlag] ++
    (p.overrides.map fun o =>
      Effect.cookieSet (overrideKey o) (encodeURIComponent o.url)) ++
    [Effect.reload false]

/-- Demo entry from the spec's section 8 scenario. -/
def demoEntry : OverrideEntry :=
  ⟨"checkout".data, "bootstrap/js".data, "https://cdn.example.com/a.js".data⟩

def demoProfile : Profile := ⟨"demo".data, [demoEntry]⟩

def otherProfile : Profile := ⟨"other".data, []⟩

/-- A quiescent popup state: not busy, no outstanding callbacks, two saved
profiles, one override cookie in the jar, one injected element. -/
def demoState : CtrlState :=
  { busy := false
    saved := [demoProfile, otherProfile]
    active := ["demo".data]
    jar := [⟨"checkout/bootstrap/js".data, "old".data⟩, ⟨"sid".data, "s".data⟩]
    pageDom := [injectorScriptId "checkout/bootstrap/js".data]
    pageDisabled := false
    pending := []
    effects := [] }

/-- `demoState` with the busy flag set, as during `applyProfile`'s awaited
cookie clear. -/
def busyDemoState : CtrlState := { demoState with busy := true }

/-- State reached from `demoState` after `applyProfile(demoProfile)` has
started and its awaited cookie clear has resolved: the `isLoading` flag is
already cleared while the tab-query callback is still outstanding. -/
def midApplyState : CtrlState :=
  fireEvent (.applyClearDone demoProfile) (startOp (.applyP demoProfile) demoState)

/-! ## Character-class facts -/

theorem char_valid_range (c : Char) :
    c.toNat < 0xD800 ∨ (0xDFFF < c.toNat ∧ c.toNat < 0x110000) := by
  have h := c.valid
  simpa [UInt32.isValidChar, Nat.isValidChar, Char.toNat] using h

theorem char_toNat_lt (c : Char) : c.toNat < 0x110000 := by
  rcases char_valid_range c with h | ⟨_, h⟩ <;> omega

theorem ws_not_unres {c : Char} (h : wsChar c = true) :
    uriUnreserved c = false := by
  have hm : c.toNat ∈ wsNatList := by simpa [wsChar] using h
  have hall : ∀ n ∈ wsNatList, uriUnresNat n = false := by decide
  exact hall _ hm

theorem unres_not_ws {c : Char} (h : uriUnreserved c = true) :
    wsChar c = false := by
  by_cases hw : wsChar c = true
  · exact absurd h (by simp [ws_not_unres hw])
  · simpa using hw

theorem unres_ne_pct {c : Char} (h : uriUnreserved c = true) : c ≠ '%' := by
  intro he; subst he; exact absurd h (by decide)

theorem unres_ne_semi {c : Char} (h : uriUnreserved c = true) : c ≠ ';' := by
  intro he; subst he; exact absurd h (by decide)

theorem unres_ne_eq {c : Char} (h : uriUnreserved c = true) : c ≠ '=' := by
  intro he; subst he; exact absurd h (by decide)

theorem hexDigitChar_facts {n : Nat} (h : n < 16) :
    wsChar (hexDigitChar n) = false ∧ hexDigitChar n ≠ ';' ∧
      hexDigitChar n ≠ '=' := by
  have hall : ∀ m ∈ List.range 16,
      wsChar (hexDigitChar m) = false ∧ hexDigitChar m ≠ ';' ∧
        hexDigitChar m ≠ '=' := by decide
  exact hall n (List.mem_range.mpr h)

theorem utf8Bytes_lt {n : Nat} (h : n < 0x110000) :
    ∀ b ∈ utf8Bytes n, b < 256 := by
  intro b hb
  unfold utf8Bytes at hb
  split at hb
  · simp at hb; omega
  · split at hb
    · simp at hb; rcases hb with hb | hb <;> omega
    · split at hb
      · simp at hb; rcases hb with hb | hb | hb <;> omega
      · simp at hb; rcases hb with hb | hb | hb | hb <;> omega

/-- Every character emitted by `encodeURIComponent` is unreserved, `%`, or
an uppercase hex digit. -/
theorem mem_encodeURIComponent {c : Char} {s : List Char}
    (h : c ∈ encodeURIComponent s) :
    uriUnreserved c = true ∨ c = '%' ∨ ∃ n, n < 16 ∧ c = hexDigitChar n := by
  rw [encodeURIComponent, List.mem_flatMap] at h
  obtain ⟨a, _, hc⟩ := h
  by_cases hu : uriUnreserved a
  · simp [hu] at hc; subst hc; exact Or.inl hu
  · simp [hu, List.mem_flatMap] at hc
    obtain ⟨b, hb, hcc⟩ := hc
    have hblt : b < 256 := utf8Bytes_lt (char_toNat_lt a) b hb
    simp [pctByteChars] at hcc
    rcases hcc with hcc | hcc | hcc
    · exact Or.inr (Or.inl hcc)
    · exact Or.inr (Or.inr ⟨b / 16, by omega, hcc⟩)
    · exact Or.inr (Or.inr ⟨b % 16, by omega, hcc⟩)

theorem encode_no_ws {s : List Char} : ∀ c ∈ encodeURIComponent s, wsChar c = false := by
  intro c hc
  rcases mem_encodeURIComponent hc with h | h | ⟨n, hn, h⟩
  · exact unres_not_ws h
  · subst h; decide
  · subst h; exact (hexDigitChar_facts hn).1

theorem encode_no_semi {s : List Char} : ';' ∉ encodeURIComponent s := by
  intro hc
  rcases mem_encodeURIComponent hc with h | h | ⟨n, hn, h⟩
  · exact unres_ne_semi h rfl
  · exact absurd h.symm (by decide)
  · exact (hexDigitChar_facts hn).2.1 h.symm

theorem encode_no_eqchar {s : List Char} : '=' ∉ encodeURIComponent s := by
  intro hc
  rcases mem_encodeURIComponent hc with h | h | ⟨n, hn, h⟩
  · exact unres_ne_eq h rfl
  · exact absurd h.symm (by decide)
  · exact (hexDigitChar_facts hn).2.2 h.symm

/-! ## Round trip of the percent encoding -/

theorem hexVal_hexDigitChar {n : Nat} (h : n < 16) :
    hexVal (hexDigitChar n) = some n := by
  have hall : ∀ m ∈ List.range 16, hexVal (hexDigitChar m) = some m := by decide
  exact hall n (List.mem_range.mpr h)

theorem pctTokens_raw {c : Char} (h : c ≠ '%') (rest : List Char) :
    pctTokens (c :: rest) = (pctTokens rest).map fun ts => Sum.inl c :: ts := by
  rw [pctTokens.eq_def]
  simp [h]

theorem pctTokens_pct_chunk {b : Nat} (hb : b < 256) (rest : List Char) :
    pctTokens (pctByteChars b ++ rest) =
      (pctTokens rest).map fun ts => Sum.inr b :: ts := by
  have h1 : b / 16 < 16 := by omega
  have h2 : b % 16 < 16 := by omega
  have e : 16 * (b / 16) + b % 16 = b := by omega
  rw [pctByteChars]
  rw [List.cons_append, List.cons_append, List.cons_append, pctTokens.eq_def]
  simp [hexVal_hexDigitChar h1, hexVal_hexDigitChar h2, e]

theorem pctTokens_pct_chunks {bs : List Nat} (hb : ∀ b ∈ bs, b < 256)
    (rest : List Char) :
    pctTokens (bs.flatMap pctByteChars ++ rest) =
      (pctTokens rest).map fun ts => bs.map Sum.inr ++ ts := by
  induction bs with
  | nil => simp
  | cons b bs ih =>
    have hb0 : b < 256 := hb b (by simp)
    have hbs : ∀ x ∈ bs, x < 256 := fun x hx => hb x (by simp [hx])
    rw [List.flatMap_cons, List.append_assoc, pctTokens_pct_chunk hb0, ih hbs,
      Option.map_map]
    rfl

theorem pctTokens_encode : ∀ s : List Char,
    pctTokens (encodeURIComponent s) = some (encTokens s)
  | [] => rfl
  | c :: s => by
    have ih := pctTokens_encode s
    rw [encodeURIComponent, List.flatMap_cons, encTokens, List.flatMap_cons]
    rw [encodeURIComponent] at ih
    rw [encTokens] at ih
    by_cases hu : uriUnreserved c
    · simp only [hu, if_true, List.singleton_append]
      rw [pctTokens_raw (unres_ne_pct hu), ih]
      rfl
    · simp only [hu, if_false, Bool.false_eq_true]
      rw [pctTokens_pct_chunks (utf8Bytes_lt (char_toNat_lt c)), ih]
      rfl

theorem utf8Tokens_chunk {n : Nat}
    (hv : n < 0xD800 ∨ (0xDFFF < n ∧ n < 0x110000)) (ts : List (Char ⊕ Nat)) :
    utf8Tokens ((utf8Bytes n).map Sum.inr ++ ts) =
      (utf8Tokens ts).map fun s => Char.ofNat n :: s := by
  by_cases h1 : n < 0x80
  · rw [show utf8Bytes n = [n] from by rw [utf8Bytes, if_pos h1]]
    rw [List.map_cons, List.map_nil, List.cons_append, List.nil_append,
      utf8Tokens.eq_def]
    simp [h1]
  · by_cases h2 : n < 0x800
    · rw [show utf8Bytes n = [0xC0 + n / 64, 0x80 + n % 64] from by
        rw [utf8Bytes, if_neg h1, if_pos h2]]
      simp only [List.map_cons, List.map_nil, List.cons_append, List.nil_append]
      rw [utf8Tokens.eq_def]
      dsimp only
      rw [if_neg (by omega), if_neg (by omega), if_pos (by omega)]
      rw [utf8Two.eq_def]
      dsimp only
      rw [if_pos (by omega)]
      rw [show 0xC0 + n / 64 - 0xC0 = n / 64 from by omega,
        show 0x80 + n % 64 - 0x80 = n % 64 from by omega,
        show n / 64 * 64 + n % 64 = n from by omega]
    · by_cases h3 : n < 0x10000
      · rw [show utf8Bytes n =
            [0xE0 + n / 4096, 0x80 + n / 64 % 64, 0x80 + n % 64] from by
          rw [utf8Bytes, if_neg h1, if_neg h2, if_pos h3]]
        simp only [List.map_cons, List.map_nil, List.cons_append,
          List.nil_append]
        rw [utf8Tokens.eq_def]
        dsimp only
        rw [if_neg (by omega), if_neg (by omega), if_neg (by omega),
          if_pos (by omega)]
        rw [utf8Three.eq_def]
        dsimp only
        rw [if_pos (by omega)]
        rw [show (0xE0 + n / 4096 - 0xE0) * 4096 + (0x80 + n / 64 % 64 - 0x80) * 64 +
            (0x80 + n % 64 - 0x80) = n from by omega]
      · have h4 : n < 0x110000 := by omega
        rw [show utf8Bytes n =
            [0xF0 + n / 262144, 0x80 + n / 4096 % 64, 0x80 + n / 64 % 64,
              0x80 + n % 64] from by
          rw [utf8Bytes, if_neg h1, if_neg h2, if_neg h3]]
        simp only [List.map_cons, List.map_nil, List.cons_append,
          List.nil_append]
        rw [utf8Tokens.eq_def]
        dsimp only
        rw [if_neg (by omega), if_neg (by omega), if_neg (by omega),
          if_neg (by omega), if_pos (by omega)]
        rw [utf8Four.eq_def]
        dsimp only
        rw [if_pos (by omega)]
        rw [show (0xF0 + n / 262144 - 0xF0) * 262144 +
            (0x80 + n / 4096 % 64 - 0x80) * 4096 +
            (0x80 + n / 64 % 64 - 0x80) * 64 + (0x80 + n % 64 - 0x80) = n from by
          omega]

theorem utf8Tokens_encTokens : ∀ s : List Char,
    utf8Tokens (encTokens s) = some s
  | [] => rfl
  | c :: s => by
    have ih := utf8Tokens_encTokens s
    rw [encTokens, List.flatMap_cons]
    rw [encTokens] at ih
    by_cases hu : uriUnreserved c
    · simp only [hu, if_true, List.singleton_append]
      rw [utf8Tokens.eq_def]
      dsimp only
      rw [ih]
      rfl
    · simp only [hu, if_false, Bool.false_eq_true]
      rw [utf8Tokens_chunk (char_valid_range c), ih, Char.ofNat_toNat]
      rfl

/-- `decodeURIComponent` is a left inverse of `encodeURIComponent`. -/
theorem decode_encodeURIComponent (s : List Char) :
    decodeURIComponent (encodeURIComponent s) = some s := by
  rw [decodeURIComponent, pctTokens_encode, Option.some_bind,
    utf8Tokens_encTokens]

/-! ## Parsing the encoded cookie back -/

theorem dropWhile_eq_self_of_none {p : Char → Bool} :
    ∀ {s : List Char}, (∀ c ∈ s, p c = false) → s.dropWhile p = s
  | [], _ => rfl
  | c :: s, h => by
    rw [List.dropWhile_cons, if_neg]
    simp [h c (by simp)]

theorem jsTrim_of_no_ws {s : List Char} (h : ∀ c ∈ s, wsChar c = false) :
    jsTrim s = s := by
  rw [jsTrim, dropWhile_eq_self_of_none h,
    dropWhile_eq_self_of_none fun c hc => h c (List.mem_reverse.mp hc),
    List.reverse_reverse]

theorem splitSemi_of_no_semi : ∀ {s : List Char}, ';' ∉ s → splitSemi s = [s]
  | [], _ => rfl
  | c :: s, h => by
    rw [splitSemi]
    rw [if_neg (by intro hc; exact h (by simp [hc]))]
    rw [splitSemi_of_no_semi fun hc => h (by simp [hc])]

theorem idxOfEq_append {c : Char} :
    ∀ {l : List Char}, c ∉ l → ∀ r : List Char,
      idxOfEq c (l ++ c :: r) = some l.length
  | [], _, r => by simp [idxOfEq]
  | a :: l, h, r => by
    rw [List.cons_append, idxOfEq,
      if_neg (by intro ha; exact h (by simp [ha])),
      idxOfEq_append (fun hc => h (by simp [hc])) r]
    rfl

theorem mapSet_nil (k v : List Char) : mapSet [] k v = [(k, v)] := by
  simp [mapSet]

/-- Parsing the single cookie produced by `encodeCookiePair` recovers the
override key and the original URL, provided the two identifier parts
contain none of the characters the cookie syntax treats specially. -/
theorem parse_encode_single (o : OverrideEntry)
    (h3 : ∀ c ∈ o.appName ++ o.featureKey,
      c ≠ '/' ∧ c ≠ '=' ∧ c ≠ ';' ∧ wsChar c = false) :
    parseCookies (encodeCookiePair o) = [(overrideKey o, o.url)] := by
  have hkey : ∀ c ∈ overrideKey o, c ≠ '=' ∧ c ≠ ';' ∧ wsChar c = false := by
    intro c hc
    rw [overrideKey] at hc
    rcases List.mem_append.mp hc with h | h
    · have := h3 c (List.mem_append.mpr (Or.inl h))
      exact ⟨this.2.1, this.2.2.1, this.2.2.2⟩
    · rcases List.mem_cons.mp h with h | h
      · subst h; refine ⟨by decide, by decide, by decide⟩
      · have := h3 c (List.mem_append.mpr (Or.inr h))
        exact ⟨this.2.1, this.2.2.1, this.2.2.2⟩
  have hck : encodeCookiePair o =
      overrideKey o ++ '=' :: encodeURIComponent o.url := rfl
  have hnows : ∀ c ∈ encodeCookiePair o, wsChar c = false := by
    intro c hc
    rw [hck] at hc
    rcases List.mem_append.mp hc with h | h
    · exact (hkey c h).2.2
    · rcases List.mem_cons.mp h with h | h
      · subst h; decide
      · exact encode_no_ws c h
  have hnosemi : ';' ∉ encodeCookiePair o := by
    intro hc
    rw [hck] at hc
    rcases List.mem_append.mp hc with h | h
    · exact (hkey _ h).2.1 rfl
    · rcases List.mem_cons.mp h with h | h
      · exact absurd h (by decide)
      · exact encode_no_semi h
  have hne : encodeCookiePair o ≠ [] := by
    rw [hck, overrideKey]
    rcases o.appName with _ | ⟨a, l⟩ <;> simp
  have htrim : jsTrim (encodeCookiePair o) = encodeCookiePair o :=
    jsTrim_of_no_ws hnows
  have hidx : idxOfEq '=' (encodeCookiePair o) = some (overrideKey o).length := by
    rw [hck]
    exact idxOfEq_append (fun hc => (hkey _ hc).1 rfl) _
  have htake : (encodeCookiePair o).take (overrideKey o).length = overrideKey o := by
    rw [hck]; exact List.take_left _ _
  have hdrop : (encodeCookiePair o).drop ((overrideKey o).length + 1) =
      encodeURIComponent o.url := by
    rw [hck, show overrideKey o ++ '=' :: encodeURIComponent o.url =
      (overrideKey o ++ ['=']) ++ encodeURIComponent o.url by simp,
      show (overrideKey o).length + 1 = (overrideKey o ++ ['=']).length by simp]
    exact List.drop_left _ _
  have hkeyne : (overrideKey o).isEmpty = false := by
    rw [overrideKey]
    rcases o.appName with _ | ⟨a, l⟩ <;> simp
  rw [parseCookies, htrim, if_neg (by simp [hne]),
    splitSemi_of_no_semi hnosemi, List.foldl_cons, List.foldl_nil]
  simp only [htrim, hidx, htake, hdrop]
  rw [if_neg (by simp [hne])]
  rw [jsTrim_of_no_ws fun c hc => (hkey c hc).2.2]
  rw [if_neg (by simp [hkeyne])]
  rw [decode_encodeURIComponent, mapSet_nil]

/-! ## Base64 facts -/

theorem char_toNat_inj {a b : Char} (h : a.toNat = b.toNat) : a = b :=
  Char.ext (UInt32.ext h)

theorem b64val_b64char {n : Nat} (h : n < 64) : b64val (b64char n) = some n := by
  have hall : ∀ m ∈ List.range 64, b64val (b64char m) = some m := by decide
  exact hall n (List.mem_range.mpr h)

theorem b64char_ne_pad {n : Nat} (h : n < 64) : b64char n ≠ '=' := by
  have hall : ∀ m ∈ List.range 64, b64char m ≠ '=' := by decide
  exact hall n (List.mem_range.mpr h)

theorem b64_roundtrip : ∀ bs : List Nat, (∀ b ∈ bs, b < 256) →
    b64decode (b64encode bs) = some bs
  | [], _ => rfl
  | [b0], h => by
    have hb0 : b0 < 256 := h b0 (by simp)
    rw [b64encode, b64decode.eq_def]
    dsimp only
    rw [b64val_b64char (by omega), b64val_b64char (by omega)]
    dsimp only
    rw [if_pos rfl, if_pos ⟨rfl, rfl⟩]
    rw [show b0 / 4 * 4 + b0 % 4 * 16 / 16 = b0 from by omega]
  | [b0, b1], h => by
    have hb0 : b0 < 256 := h b0 (by simp)
    have hb1 : b1 < 256 := h b1 (by simp)
    rw [b64encode, b64decode.eq_def]
    dsimp only
    rw [b64val_b64char (by omega), b64val_b64char (by omega)]
    dsimp only
    rw [if_neg (b64char_ne_pad (by omega))]
    rw [b64val_b64char (by omega)]
    dsimp only
    rw [if_pos rfl, if_pos rfl]
    rw [show b0 / 4 * 4 + (b0 % 4 * 16 + b1 / 16) / 16 = b0 from by omega,
      show (b0 % 4 * 16 + b1 / 16) % 16 * 16 + b1 % 16 * 4 / 4 = b1 from by omega]
  | b0 :: b1 :: b2 :: rest, h => by
    have hb0 : b0 < 256 := h b0 (by simp)
    have hb1 : b1 < 256 := h b1 (by simp)
    have hb2 : b2 < 256 := h b2 (by simp)
    have ih := b64_roundtrip rest fun b hb => h b (by simp [hb])
    rw [b64encode]
    rw [b64decode.eq_def]
    dsimp only
    rw [b64val_b64char (by omega), b64val_b64char (by omega)]
    dsimp only
    rw [if_neg (b64char_ne_pad (by omega))]
    rw [b64val_b64char (by omega)]
    dsimp only
    rw [if_neg (b64char_ne_pad (by omega))]
    rw [b64val_b64char (by omega)]
    dsimp only
    rw [ih]
    rw [show b0 / 4 * 4 + (b0 % 4 * 16 + b1 / 16) / 16 = b0 from by omega,
      show (b0 % 4 * 16 + b1 / 16) % 16 * 16 + (b1 % 16 * 4 + b2 / 64) / 4 = b1 from by
        omega,
      show (b1 % 16 * 4 + b2 / 64) % 4 * 64 + b2 % 64 = b2 from by omega]
    rfl

theorem b64encode_inj {bs1 bs2 : List Nat} (h1 : ∀ b ∈ bs1, b < 256)
    (h2 : ∀ b ∈ bs2, b < 256) (he : b64encode bs1 = b64encode bs2) :
    bs1 = bs2 := by
  have r1 := b64_roundtrip bs1 h1
  have r2 := b64_roundtrip bs2 h2
  rw [he, r2] at r1
  exact (Option.some_inj.mp r1).symm

theorem map_toNat_inj : ∀ {k1 k2 : List Char},
    k1.map Char.toNat = k2.map Char.toNat → k1 = k2
  | [], [], _ => rfl
  | [], _ :: _, h => by simp at h
  | _ :: _, [], h => by simp at h
  | a :: k1, b :: k2, h => by
    rw [List.map_cons, List.map_cons] at h
    have h1 := List.head_eq_of_cons_eq h
    have h2 := List.tail_eq_of_cons_eq h
    rw [char_toNat_inj h1, map_toNat_inj h2]

/-! ## Cookie clearing, injector ids, and controller runs -/

theorem foldl_filter_mem (rs : List Cookie) :
    ∀ (jar : List Cookie) (c : Cookie),
      c ∈ rs.foldl (fun j r => j.filter fun x => decide (x.name ≠ r.name)) jar ↔
        c ∈ jar ∧ ∀ r ∈ rs, c.name ≠ r.name := by
  induction rs with
  | nil => intro jar c; simp
  | cons r rs ih =>
    intro jar c
    rw [List.foldl_cons, ih, List.mem_filter]
    simp only [decide_eq_true_eq, List.forall_mem_cons]
    tauto

theorem clearAllRemaining_mem (jar : List Cookie) (c : Cookie) :
    c ∈ clearAllRemaining jar ↔ c ∈ jar ∧ '/' ∉ c.name := by
  rw [clearAllRemaining, foldl_filter_mem]
  constructor
  · rintro ⟨hj, hall⟩
    refine ⟨hj, fun hs => ?_⟩
    exact hall c
      (by rw [overrideCookiesOf]; exact List.mem_filter.mpr ⟨hj, by simp [hs]⟩) rfl
  · rintro ⟨hj, hs⟩
    refine ⟨hj, fun r hr hne => ?_⟩
    rw [overrideCookiesOf, List.mem_filter] at hr
    have hrs : '/' ∈ r.name := by simpa using hr.2
    exact hs (hne ▸ hrs)

theorem slash_not_mem_injectorId (key : List Char) :
    '/' ∉ injectorScriptId key := by
  rw [injectorScriptId]
  intro h
  rcases List.mem_append.mp h with h | h
  · exact absurd h (by decide)
  · have hf := List.of_mem_filter h
    simp [b64Stripped] at hf

theorem startOp_busy (op : Op) (s : CtrlState) (h : s.busy = true) :
    startOp op s = s := by
  rw [startOp.eq_def, if_pos h]

theorem deleteRun_spec (s : CtrlState) (name : List Char) (hb : s.busy = false) :
    (deleteProfileRun name s).saved = deletedProfiles s name ∧
    (deleteProfileRun name s).active = s.active.filter (fun n => decide (n ≠ name)) ∧
    (deleteProfileRun name s).jar = s.jar ∧
    (deleteProfileRun name s).pageDom = s.pageDom ∧
    (deleteProfileRun name s).pageDisabled = s.pageDisabled ∧
    (deleteProfileRun name s).effects =
      s.effects ++ [Effect.storageWrite (deletedProfiles s name)] := by
  simp [deleteProfileRun, startOp, fireEvent, deletedProfiles, hb]

theorem applyRun_effects (p : Profile) (s : CtrlState) (hb : s.busy = false)
    (hp : s.pending = []) (he : s.effects = []) :
    (applyProfileRun p s).effects = applyEffectsSpec p s.jar := by
  simp [applyProfileRun, startOp, fireEvent, hb, hp, he, applyEffectsSpec]

/-! ## Claims -/

/-- C1: the element id by which `disableProfile` removes injected loader
elements (`"override-script-" + key`) is never the id the Injector assigns
(`"override-script-" + btoa(key)` with `+/=` stripped) for any override
key, because the former contains the key's `/` and the latter never
contains `/`; consequently removing by the disable-side id leaves a DOM
that holds exactly the injector-side element unchanged. -/
theorem C1_disable_id_mismatch (key : List Char) (h : '/' ∈ key) :
    injectorScriptId key ≠ disableRemovalId key ∧
    [injectorScriptId key].erase (disableRemovalId key) =
      [injectorScriptId key] := by
  have hd : '/' ∈ disableRemovalId key := by
    rw [disableRemovalId]
    exact List.mem_append.mpr (Or.inr h)
  have hne : injectorScriptId key ≠ disableRemovalId key := by
    intro he
    rw [← he] at hd
    exact slash_not_mem_injectorId key hd
  refine ⟨hne, List.erase_of_not_mem ?_⟩
  intro hm
  exact hne (List.mem_singleton.mp hm).symm

/-- C1 witness at the spec's demo key `checkout/bootstrap/js`. -/
theorem C1_disable_id_mismatch_witness :
    ('/' ∈ "checkout/bootstrap/js".data) ∧
    (injectorScriptId "checkout/bootstrap/js".data ≠
        disableRemovalId "checkout/bootstrap/js".data ∧
      [injectorScriptId "checkout/bootstrap/js".data].erase
          (disableRemovalId "checkout/bootstrap/js".data) =
        [injectorScriptId "checkout/bootstrap/js".data]) :=
  ⟨by decide, C1_disable_id_mismatch _ (by decide)⟩

/-- C2 counterexample: the entry `{appName := "a=b", featureKey := "c",
url := "x"}` has non-empty, `/`-free parts, yet parsing the encoded cookie
yields the pair `("a", "b/c=x")`, not `("a=b/c", "x")` — the first `=` in
`appName` is taken as the name/value separator. -/
theorem C2_roundtrip_cex :
    parseCookies (encodeCookiePair ⟨"a=b".data, "c".data, "x".data⟩) ≠
      [(overrideKey ⟨"a=b".data, "c".data, "x".data⟩, "x".data)] := by
  decide

/-- C2 (amended): for entries whose `appName` and `featureKey` are
non-empty and contain no `/`, `=`, `;` and no whitespace, decoding the
cookie written by the controller yields exactly the pair
`(appName/featureKey, url)`. -/
theorem C2_roundtrip (o : OverrideEntry) (h1 : o.appName ≠ [])
    (h2 : o.featureKey ≠ [])
    (h3 : ∀ c ∈ o.appName ++ o.featureKey,
      c ≠ '/' ∧ c ≠ '=' ∧ c ≠ ';' ∧ wsChar c = false) :
    parseCookies (encodeCookiePair o) = [(overrideKey o, o.url)] :=
  parse_encode_single o h3

/-- C2 witness on the entry `app`/`bootstrap` with an absolute URL. -/
theorem C2_roundtrip_witness :
    (("app".data : List Char) ≠ [] ∧ ("bootstrap".data : List Char) ≠ [] ∧
      (∀ c ∈ "app".data ++ "bootstrap".data,
        c ≠ '/' ∧ c ≠ '=' ∧ c ≠ ';' ∧ wsChar c = false)) ∧
    parseCookies (encodeCookiePair
        ⟨"app".data, "bootstrap".data, "https://cdn.example.com/a.js".data⟩) =
      [(overrideKey
          ⟨"app".data, "bootstrap".data, "https://cdn.example.com/a.js".data⟩,
        "https://cdn.example.com/a.js".data)] :=
  ⟨⟨by decide, by decide, by decide⟩,
    C2_roundtrip _ (by decide) (by decide) (by decide)⟩

/-- C3 counterexample: from the quiescent `demoState`, start
`applyProfile(demoProfile)` and let its awaited cookie clear resolve; the
busy flag is now `false` although the operation's tab-query callback is
still outstanding, and a `deleteProfile("other")` arriving at this point
is not a no-op — it runs and mutates the stored collection. -/
theorem C3_single_flight_cex :
    midApplyState.busy = false ∧
    Pending.applyTabQuery demoProfile ∈ midApplyState.pending ∧
    startOp (Op.deleteP "other".data) midApplyState ≠ midApplyState ∧
    (fireEvent
        (Pending.deleteStorageDone (deletedProfiles midApplyState "other".data)
          "other".data)
        (startOp (Op.deleteP "other".data) midApplyState)).saved ≠
      midApplyState.saved := by
  decide

/-- C3 (amended): a lifecycle call arriving while the busy flag is set is
a silent no-op; however the flag only spans each operation's synchronous
body (for `apply`, up to the awaited cookie clear), not its later
tab-query, scripting or storage callbacks. -/
theorem C3_busy_guard (op : Op) (s : CtrlState) (h : s.busy = true) :
    startOp op s = s :=
  startOp_busy op s h

/-- C3 witness: a delete arriving while the flag is set changes nothing. -/
theorem C3_busy_guard_witness :
    busyDemoState.busy = true ∧
    startOp (Op.deleteP "demo".data) busyDemoState = busyDemoState :=
  ⟨by decide, C3_busy_guard _ _ (by decide)⟩

/-- C4 counterexample: a complete `applyProfile` run ends with
`chrome.tabs.reload(tab.id)` — a reload whose `bypassCache` flag is not
set — and no cache-bypassing reload occurs anywhere in the run. -/
theorem C4_apply_reload_cex :
    (applyProfileRun demoProfile demoState).effects.getLast? =
      some (Effect.reload false) ∧
    Effect.reload true ∉ (applyProfileRun demoProfile demoState).effects := by
  decide

/-- C4 (amended): from a quiescent controller, `apply(profile)` performs
the spec's step sequence — clear override cookies, then (in the page)
clear the `overridesDisabled` flag and write the profile's cookies — and
ends with a reload of the tab, but a plain reload without the cache-bypass
flag. -/
theorem C4_apply_trace (p : Profile) (s : CtrlState) (hb : s.busy = false)
    (hp : s.pending = []) (he : s.effects = []) :
    (applyProfileRun p s).effects = applyEffectsSpec p s.jar ∧
    (applyProfileRun p s).effects.getLast? = some (Effect.reload false) ∧
    Effect.reload true ∉ (applyProfileRun p s).effects := by
  have heq := applyRun_effects p s hb hp he
  refine ⟨heq, ?_, ?_⟩
  · rw [heq, applyEffectsSpec, List.getLast?_concat]
  · rw [heq, applyEffectsSpec]
    simp

/-- C4 witness at the demo profile and quiescent demo state. -/
theorem C4_apply_trace_witness :
    (demoState.busy = false ∧ demoState.pending = [] ∧
      demoState.effects = []) ∧
    ((applyProfileRun demoProfile demoState).effects =
        applyEffectsSpec demoProfile demoState.jar ∧
      (applyProfileRun demoProfile demoState).effects.getLast? =
        some (Effect.reload false) ∧
      Effect.reload true ∉ (applyProfileRun demoProfile demoState).effects) :=
  ⟨⟨rfl, rfl, rfl⟩, C4_apply_trace _ _ rfl rfl rfl⟩

/-- C5 counterexample: the cookie named `"/"` is matched and removed by
`clearAllOverrideCookies` although it is not a candidate override under
the section 4.1 rule (its length is not greater than 1). -/
theorem C5_clear_cex :
    (⟨"/".data, "v".data⟩ : Cookie) ∈
      overrideCookiesOf [⟨"/".data, "v".data⟩] ∧
    clearAllRemaining [(⟨"/".data, "v".data⟩ : Cookie)] = [] ∧
    isValidOverrideKey "/".data = false := by
  decide

/-- C5 (amended): `clearAll` matches, and after completion has removed,
exactly the cookies whose name contains `/` — with no length restriction;
the `length > 1` half of the section 4.1 rule is applied only by the
Injector's `isValidOverrideKey`, not by the clearing routine. -/
theorem C5_clear_iff_slash (jar : List Cookie) (c : Cookie) :
    (c ∈ overrideCookiesOf jar ↔ c ∈ jar ∧ '/' ∈ c.name) ∧
    (c ∈ clearAllRemaining jar ↔ c ∈ jar ∧ '/' ∉ c.name) := by
  constructor
  · rw [overrideCookiesOf, List.mem_filter]
    simp
  · exact clearAllRemaining_mem jar c

/-- C6 counterexample: `"x/"` and `"x/?"` are distinct valid override
keys whose base64 encodings (`"eC8="` and `"eC8/"`) collapse to the same
derived element id once `+`, `/` and `=` are stripped — the encoding is
neither injective nor reversible. -/
theorem C6_id_collision_cex :
    isValidOverrideKey "x/".data = true ∧
    isValidOverrideKey "x/?".data = true ∧
    "x/".data ≠ "x/?".data ∧
    injectorScriptId "x/".data = injectorScriptId "x/?".data := by
  decide

/-- C6 (amended): the derived id is injective only on keys whose base64
encoding contains none of the stripped characters `+`, `/`, `=`; on that
domain the key can be recovered from the id. -/
theorem C6_id_injective_stripfree (k1 k2 : List Char)
    (hb1 : ∀ c ∈ k1, c.toNat < 256) (hb2 : ∀ c ∈ k2, c.toNat < 256)
    (hs1 : ∀ c ∈ b64encode (k1.map Char.toNat), b64Stripped c = false)
    (hs2 : ∀ c ∈ b64encode (k2.map Char.toNat), b64Stripped c = false)
    (heq : injectorScriptId k1 = injectorScriptId k2) : k1 = k2 := by
  rw [injectorScriptId, injectorScriptId] at heq
  have hf1 : (b64encode (k1.map Char.toNat)).filter (fun c => !b64Stripped c) =
      b64encode (k1.map Char.toNat) :=
    List.filter_eq_self.mpr fun a ha => by simp [hs1 a ha]
  have hf2 : (b64encode (k2.map Char.toNat)).filter (fun c => !b64Stripped c) =
      b64encode (k2.map Char.toNat) :=
    List.filter_eq_self.mpr fun a ha => by simp [hs2 a ha]
  rw [hf1, hf2] at heq
  have henc := List.append_cancel_left heq
  have hby1 : ∀ b ∈ k1.map Char.toNat, b < 256 := by
    intro b hb
    obtain ⟨c, hc, rfl⟩ := List.mem_map.mp hb
    exact hb1 c hc
  have hby2 : ∀ b ∈ k2.map Char.toNat, b < 256 := by
    intro b hb
    obtain ⟨c, hc, rfl⟩ := List.mem_map.mp hb
    exact hb2 c hc
  exact map_toNat_inj (b64encode_inj hby1 hby2 henc)

/-- C6 witness: the key `a/b` encodes strip-free (base64 `YS9i`), so the
theorem applies to it. -/
theorem C6_id_injective_witness :
    ((∀ c ∈ "a/b".data, c.toNat < 256) ∧
      (∀ c ∈ b64encode ("a/b".data.map Char.toNat), b64Stripped c = false) ∧
      injectorScriptId "a/b".data = injectorScriptId "a/b".data) ∧
    "a/b".data = "a/b".data :=
  ⟨⟨by decide, by decide, rfl⟩,
    C6_id_injective_stripfree _ _ (by decide) (by decide) (by decide)
      (by decide) rfl⟩

/-- C7: for any override key and URL, when every load fails the Injector
makes exactly 3 load attempts, the retries separated by delays
`RETRY_DELAY * 1` and `RETRY_DELAY * 2`, removing the failed element
before each retry, and the trace ends after the third attempt. -/
theorem C7_retry_bound (key url : List Char) :
    loadScriptAlwaysFail key url false 1 =
      [RetryEv.loadAttempt 1, RetryEv.delay (RETRY_DELAY * 1),
        RetryEv.removeElem, RetryEv.loadAttempt 2,
        RetryEv.delay (RETRY_DELAY * 2), RetryEv.removeElem,
        RetryEv.loadAttempt 3] ∧
    ((loadScriptAlwaysFail key url false 1).filter fun e =>
        match e with
        | RetryEv.loadAttempt _ => true
        | _ => false).length = 3 := by
  have ht : loadScriptAlwaysFail key url false 1 =
      [RetryEv.loadAttempt 1, RetryEv.delay (RETRY_DELAY * 1),
        RetryEv.removeElem, RetryEv.loadAttempt 2,
        RetryEv.delay (RETRY_DELAY * 2), RetryEv.removeElem,
        RetryEv.loadAttempt 3] := by
    simp [loadScriptAlwaysFail, MAX_RETRIES, RETRY_DELAY]
  refine ⟨ht, ?_⟩
  rw [ht]
  rfl

/-- C8: whenever the page-local disable flag holds the string "true" at
injector start, the content script produces no actions at all — it parses
no cookies and injects no elements, whatever the cookie string is. -/
theorem C8_disabled_no_injection (cookieStr : List Char) :
    contentMain (some "true".data) cookieStr = [] := by
  simp [contentMain]

/-- C9: if the document already contains exactly one element with the
derived id of an override key, running the Injector's per-key injection
again changes nothing, so exactly one element with that id exists
afterwards. -/
theorem C9_inject_idempotent (dom : List (List Char)) (key : List Char)
    (h : dom.count (injectorScriptId key) = 1) :
    loadScriptDom dom key = dom ∧
    (loadScriptDom dom key).count (injectorScriptId key) = 1 := by
  have hm : injectorScriptId key ∈ dom := List.count_pos_iff.mp (by omega)
  have he : loadScriptDom dom key = dom := by rw [loadScriptDom, if_pos hm]
  exact ⟨he, by rw [he]; exact h⟩

/-- C9 witness on a one-element document. -/
theorem C9_inject_idempotent_witness :
    ([injectorScriptId "a/b".data].count (injectorScriptId "a/b".data) = 1) ∧
    (loadScriptDom [injectorScriptId "a/b".data] "a/b".data =
        [injectorScriptId "a/b".data] ∧
      (loadScriptDom [injectorScriptId "a/b".data] "a/b".data).count
          (injectorScriptId "a/b".data) = 1) :=
  ⟨by decide, C9_inject_idempotent _ _ (by decide)⟩

/-- C10: a complete `deleteProfile(name)` run removes the named profile
from the stored collection and filters it out of the active set, leaves
the cookie jar, the injected elements and the page-local flag untouched,
and appends only a storage write to the effect log — no cookie removal,
no scripting call, no reload. -/
theorem C10_delete_frame (s : CtrlState) (name : List Char)
    (hb : s.busy = false) :
    (deleteProfileRun name s).saved = deletedProfiles s name ∧
    (deleteProfileRun name s).active =
      s.active.filter (fun n => decide (n ≠ name)) ∧
    (deleteProfileRun name s).jar = s.jar ∧
    (deleteProfileRun name s).pageDom = s.pageDom ∧
    (deleteProfileRun name s).pageDisabled = s.pageDisabled ∧
    (deleteProfileRun name s).effects =
      s.effects ++ [Effect.storageWrite (deletedProfiles s name)] :=
  deleteRun_spec s name hb

/-- C10 witness: deleting `other` from the quiescent demo state. -/
theorem C10_delete_frame_witness :
    demoState.busy = false ∧
    ((deleteProfileRun "other".data demoState).saved =
        deletedProfiles demoState "other".data ∧
      (deleteProfileRun "other".data demoState).active =
        demoState.active.filter (fun n => decide (n ≠ "other".data)) ∧
      (deleteProfileRun "other".data demoState).jar = demoState.jar ∧
      (deleteProfileRun "other".data demoState).pageDom = demoState.pageDom ∧
      (deleteProfileRun "other".data demoState).pageDisabled =
        demoState.pageDisabled ∧
      (deleteProfileRun "other".data demoState).effects =
        demoState.effects ++
          [Effect.storageWrite (deletedProfiles demoState "other".data)]) :=
  ⟨rfl, C10_delete_frame _ _ rfl⟩
